import Mathlib

/-!
# SpotiSwipe interaction state machine — shallow embedding

Shallow embedding (in Lean 4) of the session-driven interaction state
machine of the SpotiSwipe frontend, translated from the React sources:

* `src/frontend/spotiswipe/src/App.jsx` — the `FlowController`
  (steps, session id, song queue, cursor, recommendations, the
  handlers `handleRegistration`, `handleStart`, `handleSwipe`,
  `getRecommendations`, `handleRestart`);
* `src/frontend/spotiswipe/src/components/SongCard.jsx` — the per-card
  gesture/commit logic (`onDragEnd`, `animateSwipe`, the keydown
  handler, and the card-detail fetch effect `fetchSongDetails`);
* `src/frontend/spotiswipe/src/components/Recommendations.jsx` — the
  results-list playback logic (`togglePlay`, `stopCurrentAudio`).

Backend calls are modelled by passing their outcome explicitly to the
handler (the handler is the continuation that runs once the call
resolves or rejects); the event loop is modelled as sequential
application of events to the state.  JavaScript truthiness of
`track_id` is modelled by comparison with the empty string; `alert`
calls are modelled by a Boolean in the handler's result.
-/

namespace SpotiSwipe

/-- The five application steps of `App.jsx` (`useState('registration')`
and the `setStep` calls). -/
inductive Step where
  | registration
  | genres
  | swiping
  | loading
  | recommendations
  deriving DecidableEq, Repr

/-- A candidate song as delivered by the backend (`data.songs` in
`handleStart`).  The state machine only ever reads `track_id`
(`handleSwipe`, `fetchSongDetails`); the remaining fields are
display-only and are kept for fidelity of the record shape.  The
numeric feature scores of recommendation rows (energy, popularity,
danceability) are display-only floats never read by any handler and
are elided. -/
structure Song where
  track_id : String
  track_name : String
  artists : String
  track_genre : String
  deriving DecidableEq, Repr

/-- The registration form data (`{ name, email }`). -/
structure UserData where
  name : String
  email : String
  deriving DecidableEq, Repr

/-- The top-level React state of `App.jsx`: one field per `useState`
hook (lines 15–20). -/
structure AppState where
  step : Step
  userData : Option UserData
  sessionId : Option String
  songs : List Song
  currentSongIndex : Nat
  recommendations : List Song
  deriving DecidableEq, Repr

/-- The initial state of `App.jsx`: `useState('registration')`,
`useState(null)`, `useState(null)`, `useState([])`, `useState(0)`,
`useState([])`. -/
def initState : AppState :=
  { step := .registration
    userData := none
    sessionId := none
    songs := []
    currentSongIndex := 0
    recommendations := [] }

/-- `handleRestart` (App.jsx lines 211–223): sets the step to
`'genres'`, the session id to `null`, the song list to `[]`, the
cursor to `0` and the recommendations to `[]`.  `userData` is not
touched. -/
def handleRestart (s : AppState) : AppState :=
  { s with
    step := .genres
    sessionId := none
    songs := []
    currentSongIndex := 0
    recommendations := [] }

/-- Outcome of the registration backend call (`/api/user-login`):
`some sid` when the response is ok and carries `session_id = sid`,
`none` when the call fails (non-ok response or network error). -/
def RegOutcome := Option String

/-- `handleRegistration` (App.jsx lines 37–71), with the outcome of
the backend call passed explicitly.  On success it stores the session
id and the user data and moves to `'genres'`; on failure the `catch`
block only alerts, leaving the state unchanged. -/
def handleRegistration (s : AppState) (data : UserData)
    (outcome : Option String) : AppState :=
  match outcome with
  | some sid =>
      { s with sessionId := some sid, userData := some data, step := .genres }
  | none => s

/-- `handleStart` (App.jsx lines 73–109), with the outcome of the
`/api/initial-songs` call passed explicitly.  On success it stores the
returned song list and moves to `'swiping'`; note that it does NOT
touch `currentSongIndex`.  On failure the `catch` block only alerts.
The selected genres are sent in the request body and do not enter the
state. -/
def handleStart (s : AppState) (outcome : Option (List Song)) : AppState :=
  match outcome with
  | some songs' => { s with songs := songs', step := .swiping }
  | none => s

/-- The observable result of one `handleSwipe` invocation: the new
state, whether the `/api/swipe` fetch was issued, and whether the
`catch` block alerted the user. -/
structure SwipeResult where
  state : AppState
  callIssued : Bool
  alerted : Bool
  deriving DecidableEq, Repr

/-- `handleSwipe` (App.jsx lines 111–163), with the outcome of the
`/api/swipe` call passed explicitly as `backendOk`.
Line 113: `if (currentSongIndex >= songs.length) return` — early
no-op.  Line 117: `if (!currentSong?.track_id) throw` — a falsy
(empty) track id throws before any fetch; the `catch` alerts.
Lines 129–142: the fetch is issued; a non-ok response throws — the
`catch` alerts and the state is left unchanged (the cursor advance on
line 145 is never reached).  Lines 144–150: on success the cursor
advances by one, and if it reaches the queue length the step becomes
`'loading'` (the delayed `getRecommendations` call is a separate
event). -/
def handleSwipe (s : AppState) (liked : Bool) (backendOk : Bool) : SwipeResult :=
  if h : s.currentSongIndex < s.songs.length then
    let currentSong := s.songs.get ⟨s.currentSongIndex, h⟩
    if currentSong.track_id = "" then
      { state := s, callIssued := false, alerted := true }
    else if backendOk then
      let nextIndex := s.currentSongIndex + 1
      let s' := { s with currentSongIndex := nextIndex }
      if s.songs.length ≤ nextIndex then
        { state := { s' with step := .loading }, callIssued := true, alerted := false }
      else
        { state := s', callIssued := true, alerted := false }
    else
      { state := s, callIssued := true, alerted := true }
  else
    { state := s, callIssued := false, alerted := false }

/-- Outcome of the `/api/recommendations` call: `error` for a non-ok
response or network error, `ok recs` for an ok response whose body's
`recommendations` field is `recs` (`none` models a missing field). -/
inductive RecOutcome where
  | error
  | ok (recs : Option (List Song))
  deriving DecidableEq, Repr

/-- `getRecommendations` (App.jsx lines 165–209), with the call's
outcome passed explicitly.  Line 167: a null session id throws.
Line 179: a non-ok response throws.  Line 183:
`if (!data.recommendations?.length) throw` — a missing or empty list
throws.  Every thrown error lands in the `catch` block, which alerts
and calls `handleRestart()` (line 207).  On success the
recommendations are stored wholesale and the step becomes
`'recommendations'`. -/
def getRecommendations (s : AppState) (outcome : RecOutcome) : AppState :=
  if s.sessionId = none then handleRestart s
  else
    match outcome with
    | .error => handleRestart s
    | .ok none => handleRestart s
    | .ok (some recs) =>
        if recs.isEmpty then handleRestart s
        else { s with recommendations := recs, step := .recommendations }

/-! ## Top-level event system

The UI event loop is modelled as sequential application of events.
Each handler fires only when the component that triggers it is
rendered (`App.jsx` lines 254–310): the login form only in
`'registration'`, the genre submit only in `'genres'`, the song card
only in `'swiping'` when `songs[currentSongIndex]` exists, the delayed
recommendations fetch only in `'loading'`, the restart button only in
`'recommendations'`. -/

/-- A user/network event, carrying the outcome of the backend call it
triggers. -/
inductive Event where
  | register (data : UserData) (outcome : Option String)
  | start (outcome : Option (List Song))
  | swipe (liked : Bool) (backendOk : Bool)
  | recs (outcome : RecOutcome)
  | restart
  deriving Repr

/-- One step of the event loop: dispatch the event to its handler if
its originating component is rendered, else leave the state unchanged. -/
def stepEvent (s : AppState) (e : Event) : AppState :=
  match e with
  | .register data out =>
      if s.step = .registration then handleRegistration s data out else s
  | .start out =>
      if s.step = .genres then handleStart s out else s
  | .swipe liked ok =>
      if s.step = .swiping ∧ s.currentSongIndex < s.songs.length then
        (handleSwipe s liked ok).state
      else s
  | .recs out =>
      if s.step = .loading then getRecommendations s out else s
  | .restart =>
      if s.step = .recommendations then handleRestart s else s

/-- Run a list of events from a state. -/
def runEvents (s : AppState) (es : List Event) : AppState :=
  es.foldl stepEvent s

/-! ## SongCard: drag release (`onDragEnd`, SongCard.jsx lines 247–257)

`onDragEnd` receives the final drag offset.  If a commit animation is
already in progress it returns without doing anything (the guard on
line 248; note that dragging itself is disabled while animating, line
241).  Otherwise, if `|offset.x| > 100` it starts the commit
animation in the direction of the sign of `offset.x`; else it springs
the card back to `{ x: 0, rotate: 0 }`. -/

/-- The discrete outcome of a drag release. -/
inductive DragOutcome where
  /-- `animateSwipe('like' | 'dislike')` is invoked; `true` = like. -/
  | commit (like : Bool)
  /-- `controls.start({ x: 0, rotate: 0 })`: the card returns to the
  recorded pose with no decision. -/
  | springBack (x rot : Int)
  /-- the early return when `isAnimating` is set. -/
  | ignored
  deriving DecidableEq, Repr

/-- `onDragEnd` (SongCard.jsx lines 247–257).  `offsetX` is
`offset.x`; the commit threshold is the literal `100`. -/
def onDragEnd (isAnimating : Bool) (offsetX : Int) : DragOutcome :=
  if isAnimating then .ignored
  else if 100 < |offsetX| then .commit (0 < offsetX)
  else .springBack 0 0

/-! ## SongCard: commit-animation mutual exclusion
(`animateSwipe`, the keydown handler, the like/dislike buttons)

Per-card trigger machine.  Each commit trigger runs atomically up to
the first `await`; `animateSwipe` (lines 161–166) returns at once when
`isAnimating` is set and otherwise sets it before its first `await`,
and calls `onSwipe` exactly once during the animation, so each
invocation that passes the guard contributes exactly one
`SwipeDecision`.  The keydown handler (lines 125–134) additionally
ignores keys while a drag is in progress; the buttons (lines 411, 420)
check `!isAnimating`; `onDragEnd` (line 248) returns when animating. -/

/-- Per-card transient state: the `isAnimating` and `isDragging`
flags, and the count of decisions sent for this card (number of
`onSwipe` calls reached). -/
structure CardState where
  isAnimating : Bool
  isDragging : Bool
  sent : Nat
  deriving DecidableEq, Repr

/-- The fresh per-card state when a new candidate becomes active. -/
def freshCard : CardState :=
  { isAnimating := false, isDragging := false, sent := 0 }

/-- A commit trigger: drag release with a final offset, a like/dislike
button press, or an arrow-key press. -/
inductive Trigger where
  | dragRelease (offsetX : Int)
  | button (like : Bool)
  | key (like : Bool)
  deriving DecidableEq, Repr

/-- The prefix of `animateSwipe` (lines 161–167) that runs before its
first `await`: the `isAnimating` guard, then `setIsAnimating(true)`;
the single `onSwipe` call of the animation is counted here. -/
def startAnimate (s : CardState) : CardState :=
  if s.isAnimating then s
  else { s with isAnimating := true, sent := s.sent + 1 }

/-- Dispatch of one commit trigger to the handler that receives it. -/
def handleTrigger (s : CardState) (t : Trigger) : CardState :=
  match t with
  | .dragRelease offsetX =>
      if s.isAnimating then s
      else
        let s' := { s with isDragging := false }
        if 100 < |offsetX| then startAnimate s' else s'
  | .button _ =>
      if s.isAnimating then s else startAnimate s
  | .key _ =>
      if s.isDragging ∨ s.isAnimating then s else startAnimate s

/-- The `finally` of `animateSwipe` (line 210): `setIsAnimating(false)`
once the animation completes. -/
def animationDone (s : CardState) : CardState :=
  { s with isAnimating := false }

/-! ## SongCard: card-detail fetch (`fetchSongDetails`, lines 67–94)

The effect keyed on `song?.track_id` issues one `/get-song-detail`
request per active candidate.  The continuation applies
`setAlbumImage(data.image)` / `setPreviewUrl(data.preview_url)`
unconditionally: there is no cancellation flag and no comparison of
the response's track id against the currently active candidate, so a
response is applied whenever it arrives.  The effect keyed on `song`
(lines 55–65) resets the media fields when the active candidate
changes. -/

/-- The per-card media state of `SongCard`. -/
structure CardMediaState where
  /-- the `song.track_id` of the currently active candidate. -/
  activeTrack : String
  albumImage : Option String
  previewUrl : Option String
  imageLoaded : Bool
  deriving DecidableEq, Repr

/-- Outcome of one `/get-song-detail` call: `ok image preview` for an
ok response (either field may be null), `error` for a non-ok response
or network error. -/
inductive DetailOutcome where
  | ok (image previewUrl : Option String)
  | error
  deriving DecidableEq, Repr

/-- A card-media event: either the active candidate changes to
`tid` (the reset effect of lines 55–65 runs and a detail fetch for
`tid` is issued), or the response of the detail fetch issued for
`forTrack` arrives. -/
inductive CardEvent where
  | songChange (tid : String)
  | detailResponse (forTrack : String) (outcome : DetailOutcome)
  deriving DecidableEq, Repr

/-- Apply one card-media event, exactly as the code does.  On
`songChange`: `setImageLoaded(false)`, `setAlbumImage(null)` (lines
56–57) and the new fetch starts with `setImageLoaded(false)` (line
72).  On `detailResponse`: lines 82–89 — the fields are written from
the response with no staleness check (`forTrack` is not consulted);
on error both fields are nulled; `finally` sets `imageLoaded`. -/
def stepCardEvent (s : CardMediaState) (e : CardEvent) : CardMediaState :=
  match e with
  | .songChange tid =>
      { s with activeTrack := tid, albumImage := none, imageLoaded := false }
  | .detailResponse _ outcome =>
      match outcome with
      | .ok image preview =>
          { s with albumImage := image, previewUrl := preview, imageLoaded := true }
      | .error =>
          { s with albumImage := none, previewUrl := none, imageLoaded := true }

/-- Run a list of card-media events. -/
def runCardEvents (s : CardMediaState) (es : List CardEvent) : CardMediaState :=
  es.foldl stepCardEvent s

/-! ## Recommendations list playback
(`Recommendations.jsx`: `SongItem.togglePlay` lines 43–86,
`stopCurrentAudio` lines 173–179, `handleEnded` lines 23–26)

Each result row owns one `<audio>` element.  `stopCurrentAudio` sets
`currentlyPlaying` to `null` and pauses every audio element in the
document; `togglePlay` for a row either pauses that row (when it is
the one recorded in `currentlyPlaying`), or calls `stopCurrentAudio`
first (via `onPlayStart`) and then — after fetching the preview URL
if it is not yet cached — plays its own element and records itself in
`currentlyPlaying`.

`togglePlay` is NOT atomic: in the uncached branch it suspends on the
`await fetch` (line 53) between the global silence (`onPlayStart()`,
line 52) and the `play()` call (line 70), and the continuation after
the fetch resumes with no re-silencing and no staleness check.  The
handler is therefore embedded as two separate events: the synchronous
segment up to the fetch suspension (`pressPlay`), and the
continuation that runs when the fetch resolves (`fetchResolved`),
with the set of in-flight fetches tracked in the state.  The
primitive audio operations each segment performs, in order, are
recorded as a trace so that intermediate moments inside a segment can
be inspected.  The after-render reconciliation effect of `SongItem`
(lines 37–41, pausing a row whose `isPlaying` turned false) is
omitted: it runs only after React re-renders and so can shorten, but
not prevent, a window in which two elements are audible. -/

/-- One row of the recommendations list: its track id, its lazily
fetched preview URL (the `previewUrl` state of `SongItem`), and
whether its `<audio>` element is currently playing. -/
structure RecRow where
  track_id : String
  previewUrl : Option String
  playing : Bool
  deriving DecidableEq, Repr

/-- The playback state of the `Recommendations` component: the rows,
the `currentlyPlaying` track id, and the indices of rows with an
in-flight `/get-song-detail` fetch (a `togglePlay` invocation
suspended at line 53 whose continuation has not yet run). -/
structure RecPlayState where
  rows : List RecRow
  currentlyPlaying : Option String
  pending : List Nat
  deriving DecidableEq, Repr

/-- A primitive operation on the document's audio elements, in the
order the handler performs them. -/
inductive AudioOp where
  /-- `stopCurrentAudio`: pause every audio element (lines 175–178). -/
  | pauseAll
  /-- `audioRef.current.pause()` of row `i`. -/
  | pauseRow (i : Nat)
  /-- `audioRef.current.play()` of row `i` succeeding. -/
  | playRow (i : Nat)
  deriving DecidableEq, Repr

/-- Replace row `i` by `f` applied to it (out-of-range is a no-op);
this is how a handler touches its own `<audio>` element / state. -/
def modifyRow : List RecRow → Nat → (RecRow → RecRow) → List RecRow
  | [], _, _ => []
  | r :: rs, 0, f => f r :: rs
  | r :: rs, i + 1, f => r :: modifyRow rs i f

/-- Set the `playing` flag of row `i`. -/
def setPlaying (rows : List RecRow) (i : Nat) (b : Bool) : List RecRow :=
  modifyRow rows i fun r => { r with playing := b }

/-- The effect of one primitive audio operation on the rows. -/
def applyOp (rows : List RecRow) : AudioOp → List RecRow
  | .pauseAll => rows.map fun r => { r with playing := false }
  | .pauseRow i => setPlaying rows i false
  | .playRow i => setPlaying rows i true

/-- Apply a sequence of primitive audio operations. -/
def applyOps (rows : List RecRow) (ops : List AudioOp) : List RecRow :=
  ops.foldl applyOp rows

/-- Outcome of the `/get-song-detail` fetch inside `togglePlay`
(lines 53–61): `ok preview` for an ok response (`preview = none`
models a null `preview_url`, line 62); `error` for a non-ok response
or network error. -/
inductive FetchRes where
  | error
  | ok (preview : Option String)
  deriving DecidableEq, Repr

/-- The synchronous segment of `togglePlay` of row `i` (lines 43–57,
and for a cached preview URL the whole handler, lines 77–85): it runs
atomically up to the handler's first suspension.  `playOk` is the
success of `audioRef.current.play()` in the cached branch (autoplay/
platform rejection lands in the `catch`, which does not set
`currentlyPlaying`).  Returns the new state and the trace of
primitive audio operations in the order performed.
Branches, following the code:
* lines 44–48: the row is the one in `currentlyPlaying` — pause it,
  clear `currentlyPlaying`;
* lines 50–53: no cached preview URL — `onPlayStart()` (=
  `stopCurrentAudio`: clear `currentlyPlaying`, pause all), then the
  handler suspends on `await fetch`; the rest of the branch is the
  continuation `fetchResolved` below;
* lines 77–85: cached preview URL — `onPlayStart()`, then play the
  row and record it. -/
def pressPlay (st : RecPlayState) (i : Nat) (playOk : Bool) :
    RecPlayState × List AudioOp :=
  match st.rows.get? i with
  | none => (st, [])
  | some row =>
    if st.currentlyPlaying = some row.track_id then
      ({ rows := setPlaying st.rows i false, currentlyPlaying := none,
         pending := st.pending },
       [.pauseRow i])
    else
      let paused := st.rows.map fun r => { r with playing := false }
      match row.previewUrl with
      | none =>
        ({ rows := paused, currentlyPlaying := none, pending := i :: st.pending },
         [.pauseAll])
      | some _ =>
        if playOk then
          ({ rows := setPlaying paused i true, currentlyPlaying := some row.track_id,
             pending := st.pending },
           [.pauseAll, .playRow i])
        else
          ({ rows := paused, currentlyPlaying := none, pending := st.pending },
           [.pauseAll])

/-- The continuation of an uncached `togglePlay` after its
`/get-song-detail` fetch resolves (lines 59–72): a failed fetch or a
null `preview_url` only shows an alert; otherwise the URL is cached,
the row's element is played and — when `play()` succeeds — the row is
recorded in `currentlyPlaying`.  The continuation performs NO
re-silencing and NO staleness check: whatever started playing while
the fetch was in flight is not paused. -/
def fetchResolved (st : RecPlayState) (i : Nat) (res : FetchRes) (playOk : Bool) :
    RecPlayState × List AudioOp :=
  if i ∈ st.pending then
    match st.rows.get? i with
    | none => ({ st with pending := st.pending.erase i }, [])
    | some row =>
      match res with
      | .error => ({ st with pending := st.pending.erase i }, [])
      | .ok none => ({ st with pending := st.pending.erase i }, [])
      | .ok (some url) =>
        if playOk then
          ({ rows := modifyRow st.rows i
                fun r => { r with previewUrl := some url, playing := true }
             currentlyPlaying := some row.track_id,
             pending := st.pending.erase i },
           [.playRow i])
        else
          ({ rows := modifyRow st.rows i fun r => { r with previewUrl := some url }
             currentlyPlaying := st.currentlyPlaying,
             pending := st.pending.erase i },
           [])
  else (st, [])

/-- A playback event on the recommendations screen. -/
inductive RecEvent where
  /-- the play/pause button of row `i` is pressed: the synchronous
  segment of `togglePlay` runs. -/
  | press (i : Nat) (playOk : Bool)
  /-- the `/get-song-detail` fetch issued for row `i` resolves and
  the suspended `togglePlay` continuation runs. -/
  | fetchDone (i : Nat) (res : FetchRes) (playOk : Bool)
  /-- the `<audio>` element of row `i` fires `ended` (lines 23–26):
  the element has stopped by itself and `currentlyPlaying` is
  cleared. -/
  | ended (i : Nat)
  deriving DecidableEq, Repr

/-- One step of the recommendations playback event loop. -/
def stepRecEvent (st : RecPlayState) (e : RecEvent) : RecPlayState × List AudioOp :=
  match e with
  | .press i playOk => pressPlay st i playOk
  | .fetchDone i res playOk => fetchResolved st i res playOk
  | .ended i =>
      ({ rows := setPlaying st.rows i false, currentlyPlaying := none,
         pending := st.pending },
       [.pauseRow i])

/-- Run a list of playback events. -/
def runRecEvents (st : RecPlayState) (es : List RecEvent) : RecPlayState :=
  es.foldl (fun st e => (stepRecEvent st e).1) st

/-- The number of rows whose audio element is playing. -/
def playingCount (rows : List RecRow) : Nat :=
  rows.countP (·.playing)

/-! ## Derived runs -/

/-- Run a sequence of swipe decisions whose backend calls all
succeed. -/
def swipeRun (s : AppState) (ls : List Bool) : AppState :=
  ls.foldl (fun st l => (handleSwipe st l true).state) s

/-- A sample candidate song used in concrete witnesses. -/
def exSong : Song :=
  { track_id := "t1", track_name := "Song One", artists := "A", track_genre := "pop" }

/-- A second sample candidate song used in concrete witnesses. -/
def exSong2 : Song :=
  { track_id := "t2", track_name := "Song Two", artists := "B", track_genre := "rock" }

/-! # Theorems for the claims -/

/-- **C1, counterexample.**  The claim states that a restart preserves
the session id unchanged.  At a concrete Recommendations-step state
holding session id `"sid-1"`, `handleRestart` yields a state whose
session id is `null`, not `"sid-1"`. -/
theorem c1_restart_nulls_session :
    (handleRestart
      { step := .recommendations, userData := none, sessionId := some "sid-1",
        songs := [exSong], currentSongIndex := 1,
        recommendations := [exSong2] }).sessionId ≠ some "sid-1" := by
  decide

/-- **C1, amended.**  Every restart action (the explicit user action
and the forced restart after a recommendations-fetch failure) yields
the state with step `GenreSelection`, empty song queue, cursor `0`,
empty recommendation list, and the session id set to `null`
(destroyed) rather than preserved; only the user data survives. -/
theorem c1_restart_state (s : AppState) :
    handleRestart s =
      { step := .genres, userData := s.userData, sessionId := none,
        songs := [], currentSongIndex := 0, recommendations := [] } ∧
    getRecommendations s .error = handleRestart s := by
  refine ⟨rfl, ?_⟩
  unfold getRecommendations
  split <;> rfl

/-- **C2, counterexample.**  The claim states that when the backend
swipe-commit call fails the cursor still commits forward by one.  At a
concrete Swiping-step state with cursor `0`, `handleSwipe` with a
failed backend call alerts the user but leaves the cursor at `0`, not
`1`: the throw on a non-ok response happens before the cursor
advance. -/
theorem c2_failed_swipe_keeps_cursor :
    (handleSwipe
      { step := .swiping, userData := none, sessionId := some "sid-1",
        songs := [exSong, exSong2], currentSongIndex := 0,
        recommendations := [] } true false).alerted = true ∧
    (handleSwipe
      { step := .swiping, userData := none, sessionId := some "sid-1",
        songs := [exSong, exSong2], currentSongIndex := 0,
        recommendations := [] } true false).state.currentSongIndex ≠ 0 + 1 := by
  decide

/-- **C2, amended.**  For every swipe commit whose backend call fails
(non-ok response), the failure is reported to the user, the swipe call
having been issued, and the whole state — in particular the cursor —
is left unchanged: the local cursor advance never happens, so no
divergence between the local queue position and the backend's record
is introduced by the failure. -/
theorem c2_failed_swipe_no_advance (s : AppState) (liked : Bool)
    (hlt : s.currentSongIndex < s.songs.length)
    (hid : (s.songs.get ⟨s.currentSongIndex, hlt⟩).track_id ≠ "") :
    handleSwipe s liked false = { state := s, callIssued := true, alerted := true } := by
  unfold handleSwipe
  rw [dif_pos hlt, if_neg hid]
  rfl

/-- **C2, witness.** -/
theorem c2_failed_swipe_no_advance_witness :
    handleSwipe
      { step := .swiping, userData := none, sessionId := some "s",
        songs := [exSong], currentSongIndex := 0, recommendations := [] }
      true false =
    { state :=
        { step := .swiping, userData := none, sessionId := some "s",
          songs := [exSong], currentSongIndex := 0, recommendations := [] },
      callIssued := true, alerted := true } :=
  c2_failed_swipe_no_advance _ true (by decide) (by decide)

/-- **C5.**  In the Loading step, a recommendations response with a
missing list and one with an empty list each produce exactly the same
state as a transport/HTTP failure of the fetch, and that common state
is the restart state: step `GenreSelection`, queue and recommendations
cleared. -/
theorem c5_empty_recs_is_error (s : AppState) :
    getRecommendations s (.ok none) = getRecommendations s .error ∧
    getRecommendations s (.ok (some [])) = getRecommendations s .error ∧
    getRecommendations s .error = handleRestart s := by
  refine ⟨?_, ?_, ?_⟩ <;> (unfold getRecommendations; split <;> rfl)

/-- **C10.**  Whenever the swipe handler is invoked with the cursor at
or past the queue length (including the empty queue), it is a no-op:
no backend call is issued, no alert is raised, and the state — step,
session id, song queue, cursor and recommendations — is returned
unchanged. -/
theorem c10_swipe_past_end_noop (s : AppState) (liked backendOk : Bool)
    (h : s.songs.length ≤ s.currentSongIndex) :
    handleSwipe s liked backendOk = { state := s, callIssued := false, alerted := false } := by
  unfold handleSwipe
  rw [dif_neg (not_lt.mpr h)]

/-- **C10, witness.** -/
theorem c10_swipe_past_end_noop_witness :
    handleSwipe
      { step := .swiping, userData := none, sessionId := some "s",
        songs := [], currentSongIndex := 0, recommendations := [] }
      true true =
    { state :=
        { step := .swiping, userData := none, sessionId := some "s",
          songs := [], currentSongIndex := 0, recommendations := [] },
      callIssued := false, alerted := false } :=
  c10_swipe_past_end_noop _ true true (by decide)

/-- **C6.**  On every drag release outside a commit animation: when
the absolute horizontal offset exceeds the commit threshold (the
literal `100`), a commit is started in the direction of the sign of
the offset; otherwise no decision is committed and the card pose is
returned exactly to neutral (`x = 0`, `rotate = 0`).  (While a commit
animation runs, dragging is disabled — SongCard.jsx line 241 — so
every drag release happens with `isAnimating` false.) -/
theorem c6_drag_release (offsetX : Int) :
    (100 < |offsetX| → onDragEnd false offsetX = .commit (0 < offsetX)) ∧
    (|offsetX| ≤ 100 → onDragEnd false offsetX = .springBack 0 0) := by
  constructor
  · intro h
    unfold onDragEnd
    rw [if_neg (by simp), if_pos h]
  · intro h
    unfold onDragEnd
    rw [if_neg (by simp), if_neg (not_lt.mpr h)]

/-- **C6, witness.** -/
theorem c6_drag_release_witness :
    onDragEnd false 150 = .commit true ∧ onDragEnd false (-50) = .springBack 0 0 :=
  ⟨(c6_drag_release 150).1 (by decide), (c6_drag_release (-50)).2 (by decide)⟩

/-- **C3 (code bug), evaluation at the failing input.**  The card
starts on candidate `"k1"` and a detail fetch for `"k1"` is issued;
the user advances to `"k2"` (the media resets and a fetch for `"k2"`
is issued); the response for `"k2"` arrives and is applied; then the
stale response for `"k1"` arrives.  Because `fetchSongDetails` applies
every response with no staleness check, the stale `"k1"` response
overwrites the CardMedia of the active candidate `"k2"`: the final
album image and preview URL are those of `"k1"`, not of `"k2"`. -/
theorem c3_stale_response_applied :
    (runCardEvents { activeTrack := "k1", albumImage := none, previewUrl := none, imageLoaded := false }
      [ .songChange "k2",
        .detailResponse "k2" (.ok (some "img2") (some "p2")),
        .detailResponse "k1" (.ok (some "img1") (some "p1")) ]) =
    { activeTrack := "k2", albumImage := some "img1", previewUrl := some "p1",
      imageLoaded := true } := by
  decide

/-! ## C4: queue exhaustion -/

/-- A successful swipe strictly inside the queue advances the cursor
by one and changes nothing else. -/
lemma handleSwipe_mid (s : AppState) (l : Bool)
    (h1 : s.currentSongIndex + 1 < s.songs.length)
    (hv : ∀ t ∈ s.songs, t.track_id ≠ "") :
    handleSwipe s l true =
      { state := { s with currentSongIndex := s.currentSongIndex + 1 },
        callIssued := true, alerted := false } := by
  have hlt : s.currentSongIndex < s.songs.length := Nat.lt_of_succ_lt h1
  have hid : (s.songs.get ⟨s.currentSongIndex, hlt⟩).track_id ≠ "" :=
    hv _ (s.songs.get_mem _ _)
  unfold handleSwipe
  rw [dif_pos hlt, if_neg hid, if_pos rfl, if_neg (not_le.mpr h1)]

/-- A successful swipe of the last candidate advances the cursor to
the queue length and sets the step to Loading. -/
lemma handleSwipe_last (s : AppState) (l : Bool)
    (h1 : s.currentSongIndex + 1 = s.songs.length)
    (hv : ∀ t ∈ s.songs, t.track_id ≠ "") :
    handleSwipe s l true =
      { state := { s with currentSongIndex := s.currentSongIndex + 1, step := .loading },
        callIssued := true, alerted := false } := by
  have hlt : s.currentSongIndex < s.songs.length := h1 ▸ Nat.lt_succ_self _
  have hid : (s.songs.get ⟨s.currentSongIndex, hlt⟩).track_id ≠ "" :=
    hv _ (s.songs.get_mem _ _)
  unfold handleSwipe
  rw [dif_pos hlt, if_neg hid, if_pos rfl, if_pos (Nat.le_of_eq h1.symm)]

/-- Running successful swipes that stay strictly inside the queue only
advances the cursor by the number of swipes. -/
lemma swipeRun_mid (ls : List Bool) : ∀ s : AppState,
    (∀ t ∈ s.songs, t.track_id ≠ "") →
    s.currentSongIndex + ls.length < s.songs.length →
    swipeRun s ls = { s with currentSongIndex := s.currentSongIndex + ls.length } := by
  induction ls with
  | nil => intro s _ _; rfl
  | cons l ls ih =>
    intro s hv h
    simp only [List.length_cons] at h
    have h1 : s.currentSongIndex + 1 < s.songs.length := by omega
    have hrw : swipeRun s (l :: ls) =
        swipeRun { s with currentSongIndex := s.currentSongIndex + 1 } ls := by
      show swipeRun (handleSwipe s l true).state ls = _
      rw [handleSwipe_mid s l h1 hv]
    rw [hrw, ih { s with currentSongIndex := s.currentSongIndex + 1 } hv
      (by show s.currentSongIndex + 1 + ls.length < s.songs.length; omega)]
    show ({ s with currentSongIndex := s.currentSongIndex + 1 + ls.length } : AppState) = _
    congr 1
    simp only [List.length_cons]
    omega

/-- Running successful swipes that exhaust the queue exactly puts the
cursor at the queue length and the step at Loading. -/
lemma swipeRun_last (ls : List Bool) : ∀ s : AppState, ls ≠ [] →
    (∀ t ∈ s.songs, t.track_id ≠ "") →
    s.currentSongIndex + ls.length = s.songs.length →
    swipeRun s ls =
      { s with currentSongIndex := s.songs.length, step := .loading } := by
  induction ls with
  | nil => intro s hne _ _; exact absurd rfl hne
  | cons l ls ih =>
    intro s _ hv h
    simp only [List.length_cons] at h
    cases ls with
    | nil =>
      simp only [List.length_nil] at h
      have h1 : s.currentSongIndex + 1 = s.songs.length := by omega
      have hrw : swipeRun s [l] =
          { s with currentSongIndex := s.currentSongIndex + 1, step := .loading } := by
        show (handleSwipe s l true).state = _
        rw [handleSwipe_last s l h1 hv]
      rw [hrw]
      congr 1
    | cons l' ls' =>
      simp only [List.length_cons] at h
      have h1 : s.currentSongIndex + 1 < s.songs.length := by omega
      have hrw : swipeRun s (l :: l' :: ls') =
          swipeRun { s with currentSongIndex := s.currentSongIndex + 1 } (l' :: ls') := by
        show swipeRun (handleSwipe s l true).state (l' :: ls') = _
        rw [handleSwipe_mid s l h1 hv]
      rw [hrw]
      exact ih { s with currentSongIndex := s.currentSongIndex + 1 }
        (fun hx => List.noConfusion hx) hv
        (by show s.currentSongIndex + 1 + (l' :: ls').length = s.songs.length
            simp only [List.length_cons]
            omega)

/-- **C4.**  For every Swiping-step state with the cursor at `0` and a
non-empty queue all of whose candidates carry a (truthy) track id, a
sequence of exactly `N = queue length` successfully committed swipe
decisions — any mix of likes and dislikes — ends with the step at
Loading and the cursor at `N`, and every proper prefix of the
sequence leaves the step at Swiping: the Swiping → Loading transition
fires exactly once, at the `N`-th commit. -/
theorem c4_n_swipes_reach_loading (s : AppState) (ls : List Bool)
    (hstep : s.step = .swiping) (hc : s.currentSongIndex = 0)
    (hlen : ls.length = s.songs.length) (hne : ls ≠ [])
    (hv : ∀ t ∈ s.songs, t.track_id ≠ "") :
    (swipeRun s ls).step = .loading ∧
    (swipeRun s ls).currentSongIndex = s.songs.length ∧
    ∀ k, k < ls.length → (swipeRun s (ls.take k)).step = .swiping := by
  have hfin := swipeRun_last ls s hne hv (by omega)
  refine ⟨by rw [hfin], by rw [hfin], ?_⟩
  intro k hk
  have htake : (ls.take k).length = k := by
    rw [List.length_take]
    omega
  have hmid := swipeRun_mid (ls.take k) s hv (by rw [htake]; omega)
  rw [hmid]
  exact hstep

/-- **C4, witness.** -/
theorem c4_n_swipes_reach_loading_witness :
    (swipeRun
      { step := .swiping, userData := none, sessionId := some "s",
        songs := [exSong, exSong2], currentSongIndex := 0, recommendations := [] }
      [true, false]).step = .loading ∧
    (swipeRun
      { step := .swiping, userData := none, sessionId := some "s",
        songs := [exSong, exSong2], currentSongIndex := 0, recommendations := [] }
      ([true, false].take 1)).step = .swiping :=
  ⟨(c4_n_swipes_reach_loading _ [true, false] rfl rfl (by decide) (by decide)
      (by decide)).1,
   (c4_n_swipes_reach_loading _ [true, false] rfl rfl (by decide) (by decide)
      (by decide)).2.2 1 (by decide)⟩

/-! ## C7: commit-trigger mutual exclusion -/

/-- Invariant of the per-card trigger machine within one card
activation (no `animationDone` yet): at most one decision has been
sent, and none unless an animation is in progress. -/
def cardInv (s : CardState) : Prop :=
  s.sent ≤ 1 ∧ (s.isAnimating = false → s.sent = 0)

/-- One trigger preserves the per-card invariant. -/
lemma handleTrigger_inv (s : CardState) (t : Trigger) (h : cardInv s) :
    cardInv (handleTrigger s t) := by
  obtain ⟨h1, h2⟩ := h
  cases t with
  | dragRelease offsetX =>
    cases hA : s.isAnimating with
    | true => simp [handleTrigger, hA, cardInv]; exact h1
    | false =>
      have h0 : s.sent = 0 := h2 hA
      by_cases hoff : (100 : Int) < |offsetX| <;>
        simp [handleTrigger, hA, hoff, startAnimate, cardInv, h0]
  | button like =>
    cases hA : s.isAnimating with
    | true => simp [handleTrigger, hA, cardInv]; exact h1
    | false =>
      have h0 : s.sent = 0 := h2 hA
      simp [handleTrigger, hA, startAnimate, cardInv, h0]
  | key like =>
    cases hA : s.isAnimating with
    | true => simp [handleTrigger, hA, cardInv]; exact h1
    | false =>
      have h0 : s.sent = 0 := h2 hA
      cases hD : s.isDragging with
      | true => simp [handleTrigger, hA, hD, cardInv, h0]
      | false => simp [handleTrigger, hA, hD, startAnimate, cardInv, h0]

/-- A whole trigger sequence preserves the per-card invariant. -/
lemma runTriggers_inv (ts : List Trigger) : ∀ s : CardState, cardInv s →
    cardInv (ts.foldl handleTrigger s) := by
  induction ts with
  | nil => intro s h; exact h
  | cons t ts ih => intro s h; exact ih _ (handleTrigger_inv s t h)

/-- **C7.**  While a commit animation is in progress, every further
commit trigger — drag release, like/dislike button, or arrow key —
is ignored outright (the state is unchanged, so nothing is queued);
consequently, from a fresh card activation, any sequence of commit
triggers arriving before the animation completes sends at most one
SwipeDecision to the backend. -/
theorem c7_single_decision_per_card :
    (∀ (s : CardState) (t : Trigger), s.isAnimating = true → handleTrigger s t = s) ∧
    (∀ ts : List Trigger, (ts.foldl handleTrigger freshCard).sent ≤ 1) := by
  constructor
  · intro s t h
    cases t <;> simp [handleTrigger, h]
  · intro ts
    exact (runTriggers_inv ts freshCard ⟨Nat.zero_le 1, fun _ => rfl⟩).1

/-- **C7, witness.** -/
theorem c7_single_decision_per_card_witness :
    handleTrigger { isAnimating := true, isDragging := false, sent := 1 }
        (.button true) =
      { isAnimating := true, isDragging := false, sent := 1 } ∧
    (([Trigger.dragRelease 300, Trigger.key true]).foldl handleTrigger
        freshCard).sent ≤ 1 :=
  ⟨c7_single_decision_per_card.1 _ _ rfl, c7_single_decision_per_card.2 _⟩

/-! ## C8: entering Swiping from GenreSelection starts at cursor 0 -/

/-- Reachability invariant: in the Registration and GenreSelection
steps the cursor is `0`. -/
def appInv (s : AppState) : Prop :=
  (s.step = .registration ∨ s.step = .genres) → s.currentSongIndex = 0

/-- `handleSwipe` leaves the step unchanged or moves it to Loading. -/
lemma handleSwipe_step (s : AppState) (l ok : Bool) :
    (handleSwipe s l ok).state.step = s.step ∨
    (handleSwipe s l ok).state.step = .loading := by
  unfold handleSwipe
  split
  · dsimp only
    split
    · exact Or.inl rfl
    · split
      · split
        · exact Or.inr rfl
        · exact Or.inl rfl
      · exact Or.inl rfl
  · exact Or.inl rfl

/-- `getRecommendations` always lands in a state satisfying the
invariant: either the restart state (cursor `0`) or the
Recommendations step. -/
lemma getRecommendations_inv (s : AppState) (out : RecOutcome) :
    appInv (getRecommendations s out) := by
  unfold getRecommendations appInv
  split
  · intro _; rfl
  · cases out with
    | error => intro _; rfl
    | ok recs =>
      cases recs with
      | none => intro _; rfl
      | some l =>
        dsimp only
        by_cases hl : l.isEmpty
        · rw [if_pos hl]; intro _; rfl
        · rw [if_neg hl]
          intro hcontra
          rcases hcontra with hx | hx <;> exact Step.noConfusion hx

/-- Every event preserves the invariant. -/
lemma stepEvent_inv (s : AppState) (e : Event) (h : appInv s) :
    appInv (stepEvent s e) := by
  cases e with
  | register data out =>
    show appInv (if s.step = .registration then handleRegistration s data out else s)
    split
    · rename_i hs
      cases out with
      | some sid => intro _; exact h (Or.inl hs)
      | none => exact h
    · exact h
  | start out =>
    show appInv (if s.step = .genres then handleStart s out else s)
    split
    · cases out with
      | some q =>
        intro hcontra
        rcases hcontra with hx | hx <;> exact Step.noConfusion hx
      | none => exact h
    · exact h
  | swipe liked ok =>
    show appInv (if s.step = .swiping ∧ s.currentSongIndex < s.songs.length
        then (handleSwipe s liked ok).state else s)
    split
    · rename_i hguard
      intro hcontra
      rcases handleSwipe_step s liked ok with hx | hx
      · rw [hx, hguard.1] at hcontra
        rcases hcontra with hy | hy <;> exact Step.noConfusion hy
      · rw [hx] at hcontra
        rcases hcontra with hy | hy <;> exact Step.noConfusion hy
    · exact h
  | recs out =>
    show appInv (if s.step = .loading then getRecommendations s out else s)
    split
    · exact getRecommendations_inv s out
    · exact h
  | restart =>
    show appInv (if s.step = .recommendations then handleRestart s else s)
    split
    · intro _; rfl
    · exact h

/-- Every event sequence preserves the invariant. -/
lemma runEvents_inv (es : List Event) : ∀ s : AppState, appInv s →
    appInv (runEvents s es) := by
  induction es with
  | nil => intro s h; exact h
  | cons e es ih => intro s h; exact ih _ (stepEvent_inv s e h)

/-- **C8.**  In every state reachable from the initial state, if the
step is GenreSelection then a successful genre submission replaces the
queue wholesale with the returned song list, moves the step to
Swiping, and the cursor is `0` when Swiping begins. -/
theorem c8_swiping_starts_at_zero (es : List Event) (q : List Song)
    (h : (runEvents initState es).step = .genres) :
    (stepEvent (runEvents initState es) (.start (some q))).step = .swiping ∧
    (stepEvent (runEvents initState es) (.start (some q))).songs = q ∧
    (stepEvent (runEvents initState es) (.start (some q))).currentSongIndex = 0 := by
  have hinv : appInv (runEvents initState es) :=
    runEvents_inv es initState (fun _ => rfl)
  have hc : (runEvents initState es).currentSongIndex = 0 := hinv (Or.inr h)
  refine ⟨?_, ?_, ?_⟩
  · show (if (runEvents initState es).step = .genres
        then handleStart (runEvents initState es) (some q)
        else runEvents initState es).step = .swiping
    rw [if_pos h]
    rfl
  · show (if (runEvents initState es).step = .genres
        then handleStart (runEvents initState es) (some q)
        else runEvents initState es).songs = q
    rw [if_pos h]
    rfl
  · show (if (runEvents initState es).step = .genres
        then handleStart (runEvents initState es) (some q)
        else runEvents initState es).currentSongIndex = 0
    rw [if_pos h]
    exact hc

/-- **C8, witness.** -/
theorem c8_swiping_starts_at_zero_witness :
    (stepEvent (runEvents initState [.register ⟨"n", "e"⟩ (some "sid")])
      (.start (some [exSong]))).step = .swiping ∧
    (stepEvent (runEvents initState [.register ⟨"n", "e"⟩ (some "sid")])
      (.start (some [exSong]))).songs = [exSong] ∧
    (stepEvent (runEvents initState [.register ⟨"n", "e"⟩ (some "sid")])
      (.start (some [exSong]))).currentSongIndex = 0 :=
  c8_swiping_starts_at_zero [.register ⟨"n", "e"⟩ (some "sid")] [exSong] rfl

/-! ## C9: single audible source -/

/-- Pausing every audio element leaves nothing playing. -/
lemma playingCount_pauseAll (rows : List RecRow) :
    playingCount (rows.map fun r => { r with playing := false }) = 0 := by
  induction rows with
  | nil => rfl
  | cons r rs ih =>
    simp only [List.map_cons, playingCount, List.countP_cons] at ih ⊢
    simpa using ih

/-- Touching a single row changes the number of playing rows by at
most one upward. -/
lemma playingCount_modifyRow_le (rows : List RecRow) :
    ∀ (i : Nat) (f : RecRow → RecRow),
      playingCount (modifyRow rows i f) ≤ playingCount rows + 1 := by
  induction rows with
  | nil => intro i f; simp [modifyRow]
  | cons r rs ih =>
    intro i f
    cases i with
    | zero =>
      simp only [modifyRow, playingCount, List.countP_cons]
      split_ifs <;> (try simp_all) <;> omega
    | succ i =>
      simp only [modifyRow, playingCount, List.countP_cons]
      have := ih i f
      simp only [playingCount] at this
      split_ifs <;> (try simp_all) <;> omega

/-- Pausing a single row never increases the number of playing rows. -/
lemma playingCount_setPlaying_false_le (rows : List RecRow) :
    ∀ i : Nat, playingCount (setPlaying rows i false) ≤ playingCount rows := by
  induction rows with
  | nil => intro i; simp [setPlaying, modifyRow]
  | cons r rs ih =>
    intro i
    cases i with
    | zero =>
      simp only [setPlaying, modifyRow, playingCount, List.countP_cons]
      split_ifs <;> (try simp_all) <;> omega
    | succ i =>
      simp only [setPlaying, modifyRow, playingCount, List.countP_cons]
      have := ih i
      simp only [setPlaying, playingCount] at this
      split_ifs <;> (try simp_all) <;> omega

/-- Starting a single row after a global pause leaves at most one row
playing. -/
lemma playingCount_playRow_after_pauseAll (rows : List RecRow) (i : Nat) :
    playingCount (setPlaying (rows.map fun r => { r with playing := false }) i true) ≤ 1 := by
  have h := playingCount_modifyRow_le (rows.map fun r => { r with playing := false }) i
    (fun r => { r with playing := true })
  rw [playingCount_pauseAll] at h
  exact h

/-- A `pressPlay` segment preserves the single-audible-source
invariant on the resulting state. -/
lemma pressPlay_count (st : RecPlayState) (i : Nat) (pok : Bool)
    (h : playingCount st.rows ≤ 1) :
    playingCount (pressPlay st i pok).1.rows ≤ 1 := by
  unfold pressPlay
  cases hg : st.rows.get? i with
  | none => exact h
  | some row =>
    dsimp only
    split
    · exact le_trans (playingCount_setPlaying_false_le _ _) h
    · cases hp : row.previewUrl with
      | none => simp [playingCount_pauseAll]
      | some url =>
        cases pok with
        | true =>
          dsimp only [if_true]
          simpa using playingCount_playRow_after_pauseAll st.rows i
        | false =>
          dsimp only [if_false]
          simp [playingCount_pauseAll]

/-- At every intermediate moment inside a synchronous `togglePlay`
segment — after any prefix of the primitive audio operations it
performs — at most one row is audible: the global pause always
precedes the play of the new source within the segment. -/
lemma pressPlay_window (st : RecPlayState) (i : Nat) (pok : Bool)
    (h : playingCount st.rows ≤ 1) (k : Nat) :
    playingCount (applyOps st.rows (((pressPlay st i pok).2).take k)) ≤ 1 := by
  have h0 : playingCount (applyOps st.rows []) ≤ 1 := h
  have hA : playingCount (applyOps st.rows [.pauseAll]) ≤ 1 := by
    simp [applyOps, applyOp, playingCount_pauseAll]
  have hAP : playingCount (applyOps st.rows [.pauseAll, .playRow i]) ≤ 1 := by
    simpa [applyOps, applyOp] using playingCount_playRow_after_pauseAll st.rows i
  have hR : playingCount (applyOps st.rows [.pauseRow i]) ≤ 1 := by
    simpa [applyOps, applyOp] using le_trans (playingCount_setPlaying_false_le st.rows i) h
  unfold pressPlay
  cases hg : st.rows.get? i with
  | none => cases k <;> exact h0
  | some row =>
    dsimp only
    split
    · rcases k with _ | k
      · exact h0
      · simpa [List.take_of_length_le] using hR
    · cases hp : row.previewUrl with
      | none =>
        rcases k with _ | k
        · exact h0
        · simpa [List.take_of_length_le] using hA
      | some url =>
        cases pok with
        | true =>
          dsimp only [if_true]
          rcases k with _ | _ | k
          · exact h0
          · exact hA
          · simpa [List.take_of_length_le] using hAP
        | false =>
          dsimp only [if_false]
          rcases k with _ | k
          · exact h0
          · simpa [List.take_of_length_le] using hA

/-- A fetch continuation that resumes while NO source is playing
leaves at most one row playing (it plays at most its own row). -/
lemma fetchResolved_count_of_silent (st : RecPlayState) (i : Nat)
    (res : FetchRes) (pok : Bool) (h0 : playingCount st.rows = 0) :
    playingCount (fetchResolved st i res pok).1.rows ≤ 1 := by
  unfold fetchResolved
  split
  · cases hg : st.rows.get? i with
    | none => dsimp only; omega
    | some row =>
      dsimp only
      cases res with
      | error => dsimp only; omega
      | ok preview =>
        cases preview with
        | none => dsimp only; omega
        | some url =>
          dsimp only
          by_cases hpk : pok = true
          · rw [if_pos hpk]
            have hle := playingCount_modifyRow_le st.rows i
              (fun r => { r with previewUrl := some url, playing := true })
            dsimp only
            omega
          · rw [if_neg hpk]
            have hle := playingCount_modifyRow_le st.rows i
              (fun r => { r with previewUrl := some url })
            dsimp only
            omega
  · dsimp only; omega

/-- Every playback event preserves the invariant, provided a fetch
continuation only resumes while nothing is playing. -/
lemma stepRecEvent_safe (st : RecPlayState) (e : RecEvent)
    (h : playingCount st.rows ≤ 1)
    (hf : ∀ (i : Nat) (res : FetchRes) (pok : Bool),
      e = .fetchDone i res pok → playingCount st.rows = 0) :
    playingCount (stepRecEvent st e).1.rows ≤ 1 := by
  cases e with
  | press i pok => exact pressPlay_count st i pok h
  | fetchDone i res pok =>
      exact fetchResolved_count_of_silent st i res pok (hf i res pok rfl)
  | ended i => exact le_trans (playingCount_setPlaying_false_le st.rows i) h

/-- An event sequence in which every fetch continuation resumes in a
silent state preserves the invariant. -/
lemma runRecEvents_safe (es : List RecEvent) : ∀ st : RecPlayState,
    playingCount st.rows ≤ 1 →
    (∀ (k i : Nat) (res : FetchRes) (pok : Bool),
      es.get? k = some (.fetchDone i res pok) →
      playingCount (runRecEvents st (es.take k)).rows = 0) →
    playingCount (runRecEvents st es).rows ≤ 1 := by
  induction es with
  | nil => intro st h _; exact h
  | cons e es ih =>
    intro st h hcond
    have h1 : playingCount (stepRecEvent st e).1.rows ≤ 1 :=
      stepRecEvent_safe st e h
        (fun i res pok he => hcond 0 i res pok (by rw [he]; rfl))
    exact ih (stepRecEvent st e).1 h1
      (fun k i res pok hk => hcond (k + 1) i res pok hk)

/-- **C9, counterexample.**  The claim states that in every reachable
state at most one audio source is playing, with no state in which two
sources are simultaneously audible.  Concrete run refuting it: row
`0` (track `"a"`) has no cached preview, row `1` (track `"b"`) has
one; pressing play on row `0` silences everything and suspends on its
detail fetch; pressing play on row `1` silences everything and plays
row `1`; then the fetch for row `0` resolves and its continuation plays
row `0` with no re-silencing — both rows are now playing at once. -/
theorem c9_two_sources_audible :
    playingCount (runRecEvents
      { rows := [ { track_id := "a", previewUrl := none, playing := false },
                  { track_id := "b", previewUrl := some "ub", playing := false } ],
        currentlyPlaying := none, pending := [] }
      [ .press 0 true, .press 1 true,
        .fetchDone 0 (.ok (some "ua")) true ]).rows = 2 := by
  decide

/-- **C9, amended.**  Within every synchronous playback handler
segment the previously playing source is silenced before the new one
starts — after any prefix of the primitive audio
operations at most one row is audible — and every event run in which
each card-detail fetch continuation resumes while no source is
playing keeps at most one source playing in every reachable state.
(The unrestricted claim fails: a fetch continuation that resumes
after another source started playing plays its row without
re-silencing, as the counterexample shows.) -/
theorem c9_silence_before_play :
    (∀ (st : RecPlayState) (i : Nat) (pok : Bool),
      playingCount st.rows ≤ 1 →
      ∀ k : Nat,
        playingCount (applyOps st.rows (((pressPlay st i pok).2).take k)) ≤ 1) ∧
    (∀ (st : RecPlayState) (e : RecEvent),
      playingCount st.rows ≤ 1 →
      (∀ (i : Nat) (res : FetchRes) (pok : Bool),
        e = .fetchDone i res pok → playingCount st.rows = 0) →
      playingCount (stepRecEvent st e).1.rows ≤ 1) ∧
    (∀ (es : List RecEvent) (st : RecPlayState),
      playingCount st.rows ≤ 1 →
      (∀ (k i : Nat) (res : FetchRes) (pok : Bool),
        es.get? k = some (.fetchDone i res pok) →
        playingCount (runRecEvents st (es.take k)).rows = 0) →
      playingCount (runRecEvents st es).rows ≤ 1) :=
  ⟨fun st i pok h k => pressPlay_window st i pok h k,
   fun st e h hf => stepRecEvent_safe st e h hf,
   fun es st h hcond => runRecEvents_safe es st h hcond⟩

/-- Sample recommendation rows used in the C9 witness: row `0` is
playing with a cached preview, row `1` not yet fetched. -/
def exRows : List RecRow :=
  [ { track_id := "a", previewUrl := some "u1", playing := true },
    { track_id := "b", previewUrl := none, playing := false } ]

/-- **C9, witness.** -/
theorem c9_silence_before_play_witness :
    playingCount (applyOps exRows
      (((pressPlay { rows := exRows, currentlyPlaying := some "a", pending := [] }
          1 true).2).take 1)) ≤ 1 ∧
    playingCount (runRecEvents
      { rows := exRows, currentlyPlaying := some "a", pending := [] }
      [ .press 1 true, .fetchDone 1 (.ok (some "u2")) true ]).rows ≤ 1 :=
  ⟨c9_silence_before_play.1
      { rows := exRows, currentlyPlaying := some "a", pending := [] } 1 true
      (by decide) 1,
   c9_silence_before_play.2.2
      [ .press 1 true, .fetchDone 1 (.ok (some "u2")) true ]
      { rows := exRows, currentlyPlaying := some "a", pending := [] }
      (by decide)
      (by
        intro k i res pok hk
        match k with
        | 0 => simp at hk
        | 1 => decide
        | (n + 2) => exact Option.noConfusion hk)⟩


end SpotiSwipe
